import Mathlib

/-!
Shallow embedding of the `sht3x` driver (src/lib.rs): command encoding,
CRC-8 checksum, raw-to-physical unit conversions, and the three bus
operations `measure`, `status`, `reset`.  The I2C transport and the delay
provider are modelled as external collaborators: the transport is an
oracle giving the outcome of each write/read, and every bus or delay call
an operation performs is recorded in an event trace, in order.
All machine integers are modelled as `Nat`/`Int` with explicit `% 256` /
`% 65536` where u8/u16 wrapping matters; Rust's `i32` division (which
truncates toward zero) is `Int.tdiv`.
-/

/-- `const SOFT_RESET_TIME_MS: u8 = 1;` -/
def SOFT_RESET_TIME_MS : Nat := 1

/-- I2C address enum: `High = 0x45`, `Low = 0x44`. -/
inductive Address
  | High
  | Low
deriving DecidableEq

/-- `self.address as u8`: the numeric discriminant of the address enum. -/
def Address.toNat : Address → Nat
  | .High => 0x45
  | .Low => 0x44

/-- Clock stretching enum. -/
inductive ClockStretch
  | Enabled
  | Disabled
deriving DecidableEq

/-- Periodic data acquisition rate enum. -/
inductive Rate
  | R0_5
  | R1
  | R2
  | R4
  | R10
deriving DecidableEq

/-- Repeatability enum. -/
inductive Repeatability
  | High
  | Medium
  | Low
deriving DecidableEq

/-- `Repeatability::max_duration`: maximum measurement duration in ms. -/
def Repeatability.max_duration : Repeatability → Nat
  | .Low => 4
  | .Medium => 6
  | .High => 15

/-- The `Command` enum: the closed set of operations of the sensor. -/
inductive Command
  | SingleShot (cs : ClockStretch) (rpt : Repeatability)
  | Periodic (rate : Rate) (rpt : Repeatability)
  | FetchData
  | PeriodicWithART
  | Break
  | SoftReset
  | HeaterEnable
  | HeaterDisable
  | Status
  | ClearStatus
deriving DecidableEq

/-- `Command::value`: the 16-bit wire code of each command (u16 literals). -/
def Command.value : Command → Nat
  | .SingleShot .Enabled .High => 0x2C06
  | .SingleShot .Enabled .Medium => 0x2C0D
  | .SingleShot .Enabled .Low => 0x2C10
  | .SingleShot .Disabled .High => 0x2400
  | .SingleShot .Disabled .Medium => 0x240B
  | .SingleShot .Disabled .Low => 0x2416
  | .Periodic .R0_5 .High => 0x2032
  | .Periodic .R0_5 .Medium => 0x2024
  | .Periodic .R0_5 .Low => 0x202F
  | .Periodic .R1 .High => 0x2130
  | .Periodic .R1 .Medium => 0x2126
  | .Periodic .R1 .Low => 0x212D
  | .Periodic .R2 .High => 0x2236
  | .Periodic .R2 .Medium => 0x2220
  | .Periodic .R2 .Low => 0x222B
  | .Periodic .R4 .High => 0x2334
  | .Periodic .R4 .Medium => 0x2322
  | .Periodic .R4 .Low => 0x2329
  | .Periodic .R10 .High => 0x2737
  | .Periodic .R10 .Medium => 0x2721
  | .Periodic .R10 .Low => 0x272A
  | .FetchData => 0xE000
  | .PeriodicWithART => 0x2B32
  | .Break => 0x3093
  | .SoftReset => 0x30A2
  | .HeaterEnable => 0x306D
  | .HeaterDisable => 0x3066
  | .Status => 0xF32D
  | .ClearStatus => 0x3041

/-- One inner iteration of the `crc8` loop on a u8 accumulator:
`if crc & 0x80 > 0 { crc = (crc << 1) ^ 0x31 } else { crc <<= 1 }`,
with the u8 shift wrapping modulo 256. -/
def crc8Round (crc : Nat) : Nat :=
  if crc &&& 0x80 > 0 then ((crc <<< 1) % 256) ^^^ 0x31 else (crc <<< 1) % 256

/-- Body of the outer `for byte in data` loop: `crc ^= byte` then 8 rounds. -/
def crc8Byte (crc byte : Nat) : Nat := crc8Round^[8] (crc ^^^ byte)

/-- `fn crc8(data: [u8; 2]) -> u8`, generalised to a byte list folded
from the initial value `0xff`. -/
def crc8 (data : List Nat) : Nat := data.foldl crc8Byte 0xFF

/-- `convert_temperature`: `-4500 + (17500 * raw as i32) / 65535` where `/`
is Rust i32 division, i.e. truncation toward zero (`Int.tdiv`). -/
def convert_temperature (raw : Nat) : Int :=
  -4500 + Int.tdiv (17500 * (raw : Int)) 65535

/-- `convert_humidity`: `((10000 * raw as u32) / 65535) as u16`; the final
`as u16` cast is the `% 65536` wrap. -/
def convert_humidity (raw : Nat) : Nat :=
  ((10000 * raw) / 65535) % 65536

/-- The `Error<E>` enum: CRC mismatch, or an I2C bus error wrapping the
transport's own error value. -/
inductive Error (E : Type)
  | Crc
  | I2c (e : E)
deriving DecidableEq

/-- The `Measurement` struct. -/
structure Measurement where
  temperature : Int
  humidity : Nat
deriving DecidableEq

/-- One observable effect of an operation: a bus write of given bytes to an
address, a blocking delay of given milliseconds, or a bus read of a given
number of bytes from an address. -/
inductive Event
  | write (addr : Nat) (bytes : List Nat)
  | delayMs (ms : Nat)
  | read (addr : Nat) (len : Nat)
deriving DecidableEq

/-- The I2C transport collaborator, modelled as an oracle: the outcome of a
write of given bytes to an address, and the bytes produced by a read of a
given length from an address (or the transport's error). -/
structure I2CModel (E : Type) where
  writeResult : Nat → List Nat → Except E Unit
  readResult : Nat → Nat → Except E (List Nat)

/-- `u16::to_be_bytes`: big-endian byte pair of a 16-bit value. -/
def toBeBytes (v : Nat) : List Nat := [v / 256 % 256, v % 256]

/-- `u16::from_be_bytes`: 16-bit value of a big-endian byte pair. -/
def fromBeBytes (hi lo : Nat) : Nat := hi * 256 + lo

/-- A zero-initialised u8 buffer of length `n` (`let mut buf = [0; n]`)
filled by the bytes the transport returned, each wrapped to u8. -/
def fillBuf (n : Nat) (data : List Nat) : List Nat :=
  (List.range n).map (fun i => data.getD i 0 % 256)

/-- The `Sht3x` driver struct: the owned transport and the device address. -/
structure Sht3x (E : Type) where
  i2c : I2CModel E
  address : Address

variable {E : Type}

/-- `Sht3x::command`: write the command's 16-bit code as two big-endian
bytes to the device address, wrapping a transport failure in `Error.I2c`. -/
def Sht3x.command (s : Sht3x E) (c : Command) : Except (Error E) Unit × List Event :=
  let cmd_bytes := toBeBytes c.value
  match s.i2c.writeResult s.address.toNat cmd_bytes with
  | .error e => (.error (.I2c e), [.write s.address.toNat cmd_bytes])
  | .ok _ => (.ok (), [.write s.address.toNat cmd_bytes])

/-- `Sht3x::measure`: issue SingleShot, delay for the repeatability's max
duration, read 6 bytes, check both word CRCs, convert and return. -/
def Sht3x.measure (s : Sht3x E) (cs : ClockStretch) (rpt : Repeatability) :
    Except (Error E) Measurement × List Event :=
  match s.command (.SingleShot cs rpt) with
  | (.error e, tr) => (.error e, tr)
  | (.ok _, tr0) =>
    let tr1 := tr0 ++ [.delayMs rpt.max_duration]
    match s.i2c.readResult s.address.toNat 6 with
    | .error e => (.error (.I2c e), tr1 ++ [.read s.address.toNat 6])
    | .ok data =>
      let buf := fillBuf 6 data
      let tr2 := tr1 ++ [.read s.address.toNat 6]
      let temperature_bytes := [buf.getD 0 0, buf.getD 1 0]
      let temperature_calculated_crc := crc8 temperature_bytes
      let temperature_crc := buf.getD 2 0
      if temperature_crc ≠ temperature_calculated_crc then
        (.error .Crc, tr2)
      else
        let humidity_bytes := [buf.getD 3 0, buf.getD 4 0]
        let humidity_calculated_crc := crc8 humidity_bytes
        let humidity_crc := buf.getD 5 0
        if humidity_crc ≠ humidity_calculated_crc then
          (.error .Crc, tr2)
        else
          let temperature := convert_temperature (fromBeBytes (buf.getD 0 0) (buf.getD 1 0))
          let humidity := convert_humidity (fromBeBytes (buf.getD 3 0) (buf.getD 4 0))
          (.ok ⟨temperature, humidity⟩, tr2)

/-- `Sht3x::reset`: issue SoftReset, then delay `SOFT_RESET_TIME_MS`. -/
def Sht3x.reset (s : Sht3x E) : Except (Error E) Unit × List Event :=
  match s.command .SoftReset with
  | (.error e, tr) => (.error e, tr)
  | (.ok _, tr) => (.ok (), tr ++ [.delayMs SOFT_RESET_TIME_MS])

/-- `Sht3x::status`: issue Status, read 2 bytes, return them as a
big-endian u16; no checksum. -/
def Sht3x.status (s : Sht3x E) : Except (Error E) Nat × List Event :=
  match s.command .Status with
  | (.error e, tr) => (.error e, tr)
  | (.ok _, tr) =>
    match s.i2c.readResult s.address.toNat 2 with
    | .error e => (.error (.I2c e), tr ++ [.read s.address.toNat 2])
    | .ok data =>
      let status_bytes := fillBuf 2 data
      (.ok (fromBeBytes (status_bytes.getD 0 0) (status_bytes.getD 1 0)),
       tr ++ [.read s.address.toNat 2])

/-- One round of the CRC-8 algorithm as the spec words it, for an 8-bit
value: if the top bit is set, shift left and XOR with 0x31, else shift
left (the 8-bit shift drops the top bit: `2 * c` modulo 256). -/
def crc8_spec_round (c : Nat) : Nat :=
  if 128 ≤ c then (2 * c) % 256 ^^^ 0x31 else (2 * c) % 256

/-- The CRC-8 of a 2-byte word as the spec words it: start from 0xFF, for
each byte XOR it in and run 8 rounds. -/
def crc8_spec (b0 b1 : Nat) : Nat :=
  crc8_spec_round^[8] (crc8_spec_round^[8] (0xFF ^^^ b0) ^^^ b1)

set_option maxRecDepth 8192

/-- Below 256, eight `crc8Round` iterations agree with eight iterations of
the spec's round and keep the accumulator below 256. -/
lemma crc8Round_iterate_eq_spec :
    ∀ c < 256, crc8Round^[8] c = crc8_spec_round^[8] c ∧ crc8Round^[8] c < 256 := by
  decide

lemma xor_lt_256 {a b : Nat} (ha : a < 256) (hb : b < 256) : a ^^^ b < 256 := by
  have h : (256 : Nat) = 2 ^ 8 := by norm_num
  rw [h] at ha hb ⊢
  exact Nat.xor_lt_two_pow ha hb

lemma crc8_lt_256 {b0 b1 : Nat} (h0 : b0 < 256) (h1 : b1 < 256) : crc8 [b0, b1] < 256 := by
  have hx0 : 0xFF ^^^ b0 < 256 := xor_lt_256 (by norm_num) h0
  have hl1 := (crc8Round_iterate_eq_spec (0xFF ^^^ b0) hx0).2
  have hx1 : crc8Round^[8] (0xFF ^^^ b0) ^^^ b1 < 256 := xor_lt_256 hl1 h1
  exact (crc8Round_iterate_eq_spec _ hx1).2

/-- C1: `Command.value` is a total function on the closed `Command` set,
every code fits in 16 bits, and every variant/parameter combination returns
exactly the 16-bit literal of the spec's command table. -/
theorem command_value_matches_table :
    (∀ c : Command, c.value < 65536) ∧
    Command.value (.SingleShot .Enabled .High) = 0x2C06 ∧
    Command.value (.SingleShot .Enabled .Medium) = 0x2C0D ∧
    Command.value (.SingleShot .Enabled .Low) = 0x2C10 ∧
    Command.value (.SingleShot .Disabled .High) = 0x2400 ∧
    Command.value (.SingleShot .Disabled .Medium) = 0x240B ∧
    Command.value (.SingleShot .Disabled .Low) = 0x2416 ∧
    Command.value (.Periodic .R0_5 .High) = 0x2032 ∧
    Command.value (.Periodic .R0_5 .Medium) = 0x2024 ∧
    Command.value (.Periodic .R0_5 .Low) = 0x202F ∧
    Command.value (.Periodic .R1 .High) = 0x2130 ∧
    Command.value (.Periodic .R1 .Medium) = 0x2126 ∧
    Command.value (.Periodic .R1 .Low) = 0x212D ∧
    Command.value (.Periodic .R2 .High) = 0x2236 ∧
    Command.value (.Periodic .R2 .Medium) = 0x2220 ∧
    Command.value (.Periodic .R2 .Low) = 0x222B ∧
    Command.value (.Periodic .R4 .High) = 0x2334 ∧
    Command.value (.Periodic .R4 .Medium) = 0x2322 ∧
    Command.value (.Periodic .R4 .Low) = 0x2329 ∧
    Command.value (.Periodic .R10 .High) = 0x2737 ∧
    Command.value (.Periodic .R10 .Medium) = 0x2721 ∧
    Command.value (.Periodic .R10 .Low) = 0x272A ∧
    Command.value .FetchData = 0xE000 ∧
    Command.value .PeriodicWithART = 0x2B32 ∧
    Command.value .Break = 0x3093 ∧
    Command.value .SoftReset = 0x30A2 ∧
    Command.value .HeaterEnable = 0x306D ∧
    Command.value .HeaterDisable = 0x3066 ∧
    Command.value .Status = 0xF32D ∧
    Command.value .ClearStatus = 0x3041 := by
  refine ⟨fun c => ?_, ?_⟩
  · cases c <;> first
      | decide
      | (rename_i a b; cases a <;> cases b <;> decide)
  · decide

/-- C2: on any 2-byte input, `crc8` equals the spec's CRC-8 with polynomial
0x31, initial value 0xFF, no final XOR, MSB-first (formalised as
`crc8_spec`), and `crc8 [0xBE, 0xEF] = 0x92`. -/
theorem crc8_matches_spec :
    (∀ b0 < 256, ∀ b1 < 256, crc8 [b0, b1] = crc8_spec b0 b1) ∧
    crc8 [0xBE, 0xEF] = 0x92 := by
  constructor
  · intro b0 h0 b1 h1
    have hx0 : 0xFF ^^^ b0 < 256 := xor_lt_256 (by norm_num) h0
    obtain ⟨he1, hl1⟩ := crc8Round_iterate_eq_spec (0xFF ^^^ b0) hx0
    have hx1 : crc8Round^[8] (0xFF ^^^ b0) ^^^ b1 < 256 := xor_lt_256 hl1 h1
    obtain ⟨he2, -⟩ := crc8Round_iterate_eq_spec _ hx1
    calc crc8 [b0, b1] = crc8Round^[8] (crc8Round^[8] (0xFF ^^^ b0) ^^^ b1) := rfl
    _ = crc8_spec_round^[8] (crc8Round^[8] (0xFF ^^^ b0) ^^^ b1) := he2
    _ = crc8_spec_round^[8] (crc8_spec_round^[8] (0xFF ^^^ b0) ^^^ b1) := by rw [he1]
    _ = crc8_spec b0 b1 := rfl
  · decide

/-- Concrete instantiation of `crc8_matches_spec` at the reference vector. -/
theorem crc8_matches_spec_witness :
    0xBE < 256 ∧ 0xEF < 256 ∧ crc8 [0xBE, 0xEF] = crc8_spec 0xBE 0xEF :=
  ⟨by decide, by decide, crc8_matches_spec.1 0xBE (by decide) 0xEF (by decide)⟩

/-- C3: for every raw value below 2^16, the temperature conversion equals
-4500 + (17500*raw)/65535 with division truncating toward zero (equal to
the natural-number division of the nonnegative product), the intermediate
product stays below 2^31 (no i32 overflow), and raw=0, 65535, 32768 give
-4500, 13000 and 4250 (the truncated linear value). -/
theorem convert_temperature_matches_formula :
    (∀ raw : Nat, raw < 65536 →
      convert_temperature raw = -4500 + ((17500 * raw) / 65535 : Nat) ∧
      17500 * raw < 2 ^ 31) ∧
    convert_temperature 0 = -4500 ∧
    convert_temperature 65535 = 13000 ∧
    convert_temperature 32768 = 4250 ∧
    (4250 : Int) = -4500 + ((17500 * 32768) / 65535 : Nat) := by
  refine ⟨fun raw h => ⟨?_, by omega⟩, by decide, by decide, by decide, by decide⟩
  unfold convert_temperature
  congr 1

/-- Concrete instantiation of `convert_temperature_matches_formula` at
raw = 32768. -/
theorem convert_temperature_matches_formula_witness :
    32768 < 65536 ∧
    (convert_temperature 32768 = -4500 + ((17500 * 32768) / 65535 : Nat) ∧
     17500 * 32768 < 2 ^ 31) :=
  ⟨by decide, convert_temperature_matches_formula.1 32768 (by decide)⟩

/-- C4: for every raw value below 2^16, the humidity conversion equals
(10000*raw)/65535 with truncating division, the result is at most 10000
(fits u16), and raw=0, 65535 give 0 and 10000. -/
theorem convert_humidity_matches_formula :
    (∀ raw : Nat, raw < 65536 →
      convert_humidity raw = (10000 * raw) / 65535 ∧ convert_humidity raw ≤ 10000) ∧
    convert_humidity 0 = 0 ∧
    convert_humidity 65535 = 10000 := by
  refine ⟨fun raw h => ?_, by decide, by decide⟩
  have hle : (10000 * raw) / 65535 ≤ 10000 := by
    have hmul : 10000 * raw ≤ 10000 * 65535 := Nat.mul_le_mul_left 10000 (by omega)
    calc (10000 * raw) / 65535 ≤ (10000 * 65535) / 65535 := Nat.div_le_div_right hmul
    _ = 10000 := by norm_num
  have heq : convert_humidity raw = (10000 * raw) / 65535 := by
    unfold convert_humidity
    exact Nat.mod_eq_of_lt (by omega)
  exact ⟨heq, heq ▸ hle⟩

/-- Concrete instantiation of `convert_humidity_matches_formula` at
raw = 32768. -/
theorem convert_humidity_matches_formula_witness :
    32768 < 65536 ∧
    (convert_humidity 32768 = (10000 * 32768) / 65535 ∧
     convert_humidity 32768 ≤ 10000) :=
  ⟨by decide, convert_humidity_matches_formula.1 32768 (by decide)⟩

lemma fillBuf_six (x0 x1 x2 x3 x4 x5 : Nat) :
    fillBuf 6 [x0, x1, x2, x3, x4, x5] =
      [x0 % 256, x1 % 256, x2 % 256, x3 % 256, x4 % 256, x5 % 256] := rfl

lemma fillBuf_two (x0 x1 : Nat) :
    fillBuf 2 [x0, x1] = [x0 % 256, x1 % 256] := rfl

/-- Reduction of `measure` when the command write succeeds and the 6-byte
read returns the given bytes: the result is decided by the two CRC checks
and the trace is write, delay, read. -/
lemma measure_read_ok (s : Sht3x E) (cs : ClockStretch) (rpt : Repeatability)
    (b0 b1 b2 b3 b4 b5 : Nat)
    (hb0 : b0 < 256) (hb1 : b1 < 256) (hb2 : b2 < 256)
    (hb3 : b3 < 256) (hb4 : b4 < 256) (hb5 : b5 < 256)
    (hw : s.i2c.writeResult s.address.toNat
            (toBeBytes (Command.SingleShot cs rpt).value) = .ok ())
    (hr : s.i2c.readResult s.address.toNat 6 = .ok [b0, b1, b2, b3, b4, b5]) :
    s.measure cs rpt =
      ((if b2 ≠ crc8 [b0, b1] then .error .Crc
        else if b5 ≠ crc8 [b3, b4] then .error .Crc
        else .ok ⟨convert_temperature (fromBeBytes b0 b1),
                  convert_humidity (fromBeBytes b3 b4)⟩),
       [.write s.address.toNat (toBeBytes (Command.SingleShot cs rpt).value),
        .delayMs rpt.max_duration, .read s.address.toNat 6]) := by
  simp only [Sht3x.measure, Sht3x.command, hw, hr, fillBuf_six,
    List.getD_cons_zero, List.getD_cons_succ,
    Nat.mod_eq_of_lt hb0, Nat.mod_eq_of_lt hb1, Nat.mod_eq_of_lt hb2,
    Nat.mod_eq_of_lt hb3, Nat.mod_eq_of_lt hb4, Nat.mod_eq_of_lt hb5,
    List.cons_append, List.nil_append]
  split_ifs <;> rfl

/-- C5: for every clock-stretch/repeatability pair, a successful `measure`
performs exactly the sequence: write the 2-byte big-endian SingleShot code,
delay for the repeatability's max duration (Low=4, Medium=6, High=15 ms),
read 6 bytes, and return the conversions of the two big-endian data
words (bytes 0,1 for temperature, bytes 3,4 for humidity). -/
theorem measure_success_sequence (s : Sht3x E) (cs : ClockStretch)
    (rpt : Repeatability) (b0 b1 b3 b4 : Nat)
    (hb0 : b0 < 256) (hb1 : b1 < 256) (hb3 : b3 < 256) (hb4 : b4 < 256)
    (hw : s.i2c.writeResult s.address.toNat
            (toBeBytes (Command.SingleShot cs rpt).value) = .ok ())
    (hr : s.i2c.readResult s.address.toNat 6 =
            .ok [b0, b1, crc8 [b0, b1], b3, b4, crc8 [b3, b4]]) :
    s.measure cs rpt =
      (.ok ⟨convert_temperature (fromBeBytes b0 b1),
            convert_humidity (fromBeBytes b3 b4)⟩,
       [.write s.address.toNat (toBeBytes (Command.SingleShot cs rpt).value),
        .delayMs rpt.max_duration,
        .read s.address.toNat 6]) ∧
    Repeatability.max_duration .Low = 4 ∧
    Repeatability.max_duration .Medium = 6 ∧
    Repeatability.max_duration .High = 15 := by
  refine ⟨?_, rfl, rfl, rfl⟩
  rw [measure_read_ok s cs rpt b0 b1 (crc8 [b0, b1]) b3 b4 (crc8 [b3, b4])
    hb0 hb1 (crc8_lt_256 hb0 hb1) hb3 hb4 (crc8_lt_256 hb3 hb4) hw hr]
  simp

/-- Concrete instantiation of `measure_success_sequence` on a transport
returning the data words 0x656E and 0x83D2 with correct CRCs. -/
def busOk : I2CModel Unit where
  writeResult := fun _ _ => .ok ()
  readResult := fun _ _ =>
    .ok [0x65, 0x6E, crc8 [0x65, 0x6E], 0x83, 0xD2, crc8 [0x83, 0xD2]]

def devOk : Sht3x Unit := ⟨busOk, .Low⟩

theorem measure_success_sequence_witness :
    devOk.measure .Disabled .High =
      (.ok ⟨convert_temperature (fromBeBytes 0x65 0x6E),
            convert_humidity (fromBeBytes 0x83 0xD2)⟩,
       [.write devOk.address.toNat
          (toBeBytes (Command.SingleShot .Disabled .High).value),
        .delayMs (Repeatability.max_duration .High),
        .read devOk.address.toNat 6]) ∧
    Repeatability.max_duration .Low = 4 ∧
    Repeatability.max_duration .Medium = 6 ∧
    Repeatability.max_duration .High = 15 :=
  measure_success_sequence devOk .Disabled .High 0x65 0x6E 0x83 0xD2
    (by decide) (by decide) (by decide) (by decide) rfl rfl

/-- C6: when the command write succeeds and the 6-byte read succeeds, but
the temperature word's checksum byte (byte 2 vs CRC of bytes 0,1) or the
humidity word's checksum byte (byte 5 vs CRC of bytes 3,4) mismatches,
with the other word held valid, `measure` returns the checksum error
`Error.Crc` (not a bus error, not success); independently for each word. -/
theorem measure_crc_mismatch (s : Sht3x E) (cs : ClockStretch)
    (rpt : Repeatability) (b0 b1 b2 b3 b4 b5 : Nat)
    (hb0 : b0 < 256) (hb1 : b1 < 256) (hb2 : b2 < 256)
    (hb3 : b3 < 256) (hb4 : b4 < 256) (hb5 : b5 < 256)
    (hw : s.i2c.writeResult s.address.toNat
            (toBeBytes (Command.SingleShot cs rpt).value) = .ok ())
    (hr : s.i2c.readResult s.address.toNat 6 = .ok [b0, b1, b2, b3, b4, b5]) :
    (b2 ≠ crc8 [b0, b1] → b5 = crc8 [b3, b4] →
      (s.measure cs rpt).1 = .error .Crc) ∧
    (b2 = crc8 [b0, b1] → b5 ≠ crc8 [b3, b4] →
      (s.measure cs rpt).1 = .error .Crc) := by
  rw [measure_read_ok s cs rpt b0 b1 b2 b3 b4 b5 hb0 hb1 hb2 hb3 hb4 hb5 hw hr]
  constructor
  · intro h2 _
    simp [h2]
  · intro h2 h5
    simp [h2, h5]

/-- Concrete instantiation of `measure_crc_mismatch`: a transport whose
temperature checksum byte is corrupted by one flipped bit (humidity word
valid) makes `measure` return `Error.Crc`. -/
def busTempCorrupt : I2CModel Unit where
  writeResult := fun _ _ => .ok ()
  readResult := fun _ _ =>
    .ok [0x65, 0x6E, crc8 [0x65, 0x6E] ^^^ 1, 0x83, 0xD2, crc8 [0x83, 0xD2]]

def devTempCorrupt : Sht3x Unit := ⟨busTempCorrupt, .Low⟩

theorem measure_crc_mismatch_witness :
    (devTempCorrupt.measure .Enabled .Medium).1 = .error .Crc :=
  (measure_crc_mismatch devTempCorrupt .Enabled .Medium
      0x65 0x6E (crc8 [0x65, 0x6E] ^^^ 1) 0x83 0xD2 (crc8 [0x83, 0xD2])
      (by decide) (by decide) (by decide) (by decide) (by decide) (by decide)
      rfl rfl).1 (by decide) (by decide)

/-- C7: a failing transport call propagates as a bus error carrying the
transport's own error value unmodified: for the `command` primitive on any
operation; for `measure` when the write fails (the trace stops at the
write, so no delay, no read, no checksum or conversion work happens); and
for `measure` when the 6-byte read fails. -/
theorem bus_error_propagation (s : Sht3x E) (c : Command) (cs : ClockStretch)
    (rpt : Repeatability) (e : E) :
    (s.i2c.writeResult s.address.toNat (toBeBytes c.value) = .error e →
      s.command c =
        (.error (.I2c e), [.write s.address.toNat (toBeBytes c.value)])) ∧
    (s.i2c.writeResult s.address.toNat
        (toBeBytes (Command.SingleShot cs rpt).value) = .error e →
      s.measure cs rpt =
        (.error (.I2c e),
         [.write s.address.toNat (toBeBytes (Command.SingleShot cs rpt).value)])) ∧
    (s.i2c.writeResult s.address.toNat
        (toBeBytes (Command.SingleShot cs rpt).value) = .ok () →
     s.i2c.readResult s.address.toNat 6 = .error e →
      s.measure cs rpt =
        (.error (.I2c e),
         [.write s.address.toNat (toBeBytes (Command.SingleShot cs rpt).value),
          .delayMs rpt.max_duration, .read s.address.toNat 6])) := by
  refine ⟨fun hw => ?_, fun hw => ?_, fun hw hr => ?_⟩
  · simp only [Sht3x.command, hw]
  · simp only [Sht3x.measure, Sht3x.command, hw]
  · simp only [Sht3x.measure, Sht3x.command, hw, hr, List.cons_append,
      List.nil_append]

/-- Concrete instantiation of `bus_error_propagation` on a transport whose
write and read both fail. -/
def busFail : I2CModel Unit where
  writeResult := fun _ _ => .error ()
  readResult := fun _ _ => .error ()

def devFail : Sht3x Unit := ⟨busFail, .High⟩

theorem bus_error_propagation_witness :
    devFail.command .Break =
      (.error (.I2c ()), [.write devFail.address.toNat
        (toBeBytes (Command.value .Break))]) ∧
    devFail.measure .Enabled .Low =
      (.error (.I2c ()),
       [.write devFail.address.toNat
          (toBeBytes (Command.SingleShot .Enabled .Low).value)]) :=
  ⟨(bus_error_propagation devFail .Break .Enabled .Low ()).1 rfl,
   (bus_error_propagation devFail .Break .Enabled .Low ()).2.1 rfl⟩

/-- C8: a successful `status` issues exactly one write of the big-endian
encoding [0xF3, 0x2D] of the Status code 0xF32D, then one read of exactly
2 bytes, and returns the big-endian 16-bit word of those bytes; no
checksum validation and no other bus traffic appears in the trace. -/
theorem status_sequence (s : Sht3x E) (s0 s1 : Nat)
    (h0 : s0 < 256) (h1 : s1 < 256)
    (hw : s.i2c.writeResult s.address.toNat [0xF3, 0x2D] = .ok ())
    (hr : s.i2c.readResult s.address.toNat 2 = .ok [s0, s1]) :
    s.status = (.ok (fromBeBytes s0 s1),
      [.write s.address.toNat [0xF3, 0x2D], .read s.address.toNat 2]) ∧
    toBeBytes (Command.value .Status) = [0xF3, 0x2D] ∧
    fromBeBytes s0 s1 = s0 * 256 + s1 := by
  have ht : toBeBytes (Command.value .Status) = [0xF3, 0x2D] := rfl
  refine ⟨?_, ht, rfl⟩
  simp only [Sht3x.status, Sht3x.command, ht, hw, hr, fillBuf_two,
    List.getD_cons_zero, List.getD_cons_succ,
    Nat.mod_eq_of_lt h0, Nat.mod_eq_of_lt h1,
    List.cons_append, List.nil_append]

/-- Concrete instantiation of `status_sequence` on a transport returning
the status bytes 0x80, 0x10. -/
def busStatus : I2CModel Unit where
  writeResult := fun _ _ => .ok ()
  readResult := fun _ _ => .ok [0x80, 0x10]

def devStatus : Sht3x Unit := ⟨busStatus, .High⟩

theorem status_sequence_witness :
    devStatus.status = (.ok (fromBeBytes 0x80 0x10),
      [.write devStatus.address.toNat [0xF3, 0x2D],
       .read devStatus.address.toNat 2]) ∧
    toBeBytes (Command.value .Status) = [0xF3, 0x2D] ∧
    fromBeBytes 0x80 0x10 = 0x80 * 256 + 0x10 :=
  status_sequence devStatus 0x80 0x10 (by decide) (by decide) rfl rfl

/-- C9: a successful `reset` issues exactly one write of the big-endian
encoding [0x30, 0xA2] of the SoftReset code 0x30A2, then a 1 ms delay
(`SOFT_RESET_TIME_MS = 1`), and returns success carrying no data; a failed
write propagates as the bus error. -/
theorem reset_sequence (s : Sht3x E) (e : E) :
    (s.i2c.writeResult s.address.toNat [0x30, 0xA2] = .ok () →
      s.reset = (.ok (),
        [.write s.address.toNat [0x30, 0xA2], .delayMs 1])) ∧
    (s.i2c.writeResult s.address.toNat [0x30, 0xA2] = .error e →
      s.reset = (.error (.I2c e), [.write s.address.toNat [0x30, 0xA2]])) ∧
    SOFT_RESET_TIME_MS = 1 ∧
    toBeBytes (Command.value .SoftReset) = [0x30, 0xA2] := by
  have ht : toBeBytes (Command.value .SoftReset) = [0x30, 0xA2] := rfl
  refine ⟨fun hw => ?_, fun hw => ?_, rfl, ht⟩
  · simp only [Sht3x.reset, Sht3x.command, ht, hw, List.cons_append,
      List.nil_append, SOFT_RESET_TIME_MS]
  · simp only [Sht3x.reset, Sht3x.command, ht, hw]

/-- Concrete instantiation of `reset_sequence` on an always-succeeding
transport. -/
def busWriteOk : I2CModel Unit where
  writeResult := fun _ _ => .ok ()
  readResult := fun _ _ => .ok []

def devReset : Sht3x Unit := ⟨busWriteOk, .Low⟩

theorem reset_sequence_witness :
    devReset.reset = (.ok (),
      [.write devReset.address.toNat [0x30, 0xA2], .delayMs 1]) :=
  (reset_sequence devReset ()).1 rfl

/-- C10: the checksum error returned by `measure` carries no data and is
the identical error value whether the temperature word's checksum failed
(humidity valid), the humidity word's checksum failed (temperature valid),
or both failed: on any three transports exhibiting the three corruption
modes the three results are the same `Error.Crc`, so a caller cannot tell
from the error which of the two data words was corrupted. -/
theorem crc_error_indistinguishable
    (s t u : Sht3x E) (cs : ClockStretch) (rpt : Repeatability)
    (a0 a1 a2 a3 a4 a5 b0 b1 b2 b3 b4 b5 c0 c1 c2 c3 c4 c5 : Nat)
    (ha0 : a0 < 256) (ha1 : a1 < 256) (ha2 : a2 < 256)
    (ha3 : a3 < 256) (ha4 : a4 < 256) (ha5 : a5 < 256)
    (hb0 : b0 < 256) (hb1 : b1 < 256) (hb2 : b2 < 256)
    (hb3 : b3 < 256) (hb4 : b4 < 256) (hb5 : b5 < 256)
    (hc0 : c0 < 256) (hc1 : c1 < 256) (hc2 : c2 < 256)
    (hc3 : c3 < 256) (hc4 : c4 < 256) (hc5 : c5 < 256)
    (hws : s.i2c.writeResult s.address.toNat
             (toBeBytes (Command.SingleShot cs rpt).value) = .ok ())
    (hrs : s.i2c.readResult s.address.toNat 6 = .ok [a0, a1, a2, a3, a4, a5])
    (hwt : t.i2c.writeResult t.address.toNat
             (toBeBytes (Command.SingleShot cs rpt).value) = .ok ())
    (hrt : t.i2c.readResult t.address.toNat 6 = .ok [b0, b1, b2, b3, b4, b5])
    (hwu : u.i2c.writeResult u.address.toNat
             (toBeBytes (Command.SingleShot cs rpt).value) = .ok ())
    (hru : u.i2c.readResult u.address.toNat 6 = .ok [c0, c1, c2, c3, c4, c5])
    (ha2n : a2 ≠ crc8 [a0, a1]) (ha5e : a5 = crc8 [a3, a4])
    (hb2e : b2 = crc8 [b0, b1]) (hb5n : b5 ≠ crc8 [b3, b4])
    (hc2n : c2 ≠ crc8 [c0, c1]) (hc5n : c5 ≠ crc8 [c3, c4]) :
    (s.measure cs rpt).1 = .error .Crc ∧
    (t.measure cs rpt).1 = .error .Crc ∧
    (u.measure cs rpt).1 = .error .Crc ∧
    (s.measure cs rpt).1 = (t.measure cs rpt).1 ∧
    (t.measure cs rpt).1 = (u.measure cs rpt).1 := by
  have hs : (s.measure cs rpt).1 = .error .Crc := by
    rw [measure_read_ok s cs rpt a0 a1 a2 a3 a4 a5
      ha0 ha1 ha2 ha3 ha4 ha5 hws hrs]
    simp [ha2n]
  have ht : (t.measure cs rpt).1 = .error .Crc := by
    rw [measure_read_ok t cs rpt b0 b1 b2 b3 b4 b5
      hb0 hb1 hb2 hb3 hb4 hb5 hwt hrt]
    simp [hb2e, hb5n]
  have hu : (u.measure cs rpt).1 = .error .Crc := by
    rw [measure_read_ok u cs rpt c0 c1 c2 c3 c4 c5
      hc0 hc1 hc2 hc3 hc4 hc5 hwu hru]
    simp [hc2n]
  exact ⟨hs, ht, hu, hs.trans ht.symm, ht.trans hu.symm⟩

/-- Concrete instantiation of `crc_error_indistinguishable` on transports
corrupting the temperature checksum, the humidity checksum, and both. -/
def busHumCorrupt : I2CModel Unit where
  writeResult := fun _ _ => .ok ()
  readResult := fun _ _ =>
    .ok [0x65, 0x6E, crc8 [0x65, 0x6E], 0x83, 0xD2, crc8 [0x83, 0xD2] ^^^ 1]

def devHumCorrupt : Sht3x Unit := ⟨busHumCorrupt, .Low⟩

def busBothCorrupt : I2CModel Unit where
  writeResult := fun _ _ => .ok ()
  readResult := fun _ _ =>
    .ok [0x65, 0x6E, crc8 [0x65, 0x6E] ^^^ 1, 0x83, 0xD2,
         crc8 [0x83, 0xD2] ^^^ 1]

def devBothCorrupt : Sht3x Unit := ⟨busBothCorrupt, .Low⟩

theorem crc_error_indistinguishable_witness :
    (devTempCorrupt.measure .Disabled .Medium).1 = .error .Crc ∧
    (devHumCorrupt.measure .Disabled .Medium).1 = .error .Crc ∧
    (devBothCorrupt.measure .Disabled .Medium).1 = .error .Crc ∧
    (devTempCorrupt.measure .Disabled .Medium).1 =
      (devHumCorrupt.measure .Disabled .Medium).1 ∧
    (devHumCorrupt.measure .Disabled .Medium).1 =
      (devBothCorrupt.measure .Disabled .Medium).1 :=
  crc_error_indistinguishable devTempCorrupt devHumCorrupt devBothCorrupt
    .Disabled .Medium
    0x65 0x6E (crc8 [0x65, 0x6E] ^^^ 1) 0x83 0xD2 (crc8 [0x83, 0xD2])
    0x65 0x6E (crc8 [0x65, 0x6E]) 0x83 0xD2 (crc8 [0x83, 0xD2] ^^^ 1)
    0x65 0x6E (crc8 [0x65, 0x6E] ^^^ 1) 0x83 0xD2 (crc8 [0x83, 0xD2] ^^^ 1)
    (by decide) (by decide) (by decide) (by decide) (by decide) (by decide)
    (by decide) (by decide) (by decide) (by decide) (by decide) (by decide)
    (by decide) (by decide) (by decide) (by decide) (by decide) (by decide)
    rfl rfl rfl rfl rfl rfl
    (by decide) (by decide) (by decide) (by decide) (by decide) (by decide)
